import Mathlib

/-!
Shallow embedding of the meridian tower urgency engine.

Embedded source:
* `sortByUrgency` together with its local helpers `daysUntil`, `staleness` and
  `getPriority` (Tower view file, utilities section);
* the view-level partition of the tower list into `hero` / `queue` /
  `overflow` / follow-up / someday slices (top of the Tower view component);
* `handleReactivate` (Tower view) composed with `updateTowerItem`
  (`services/data.ts`);
* `generateFallbackExplanation` (`services/ai.ts`).

Modelling conventions.  JavaScript timestamps are `Int` milliseconds.  A date
string is abstracted by what the engine can observe of it: whether it is
falsy (`""`), and what `new Date(s).getTime()` yields — a real timestamp or
`NaN`.  Day distances therefore live in a three-valued type `DaysVal`
(`null` / `NaN` / integer) and the JavaScript comparison operators on them
are embedded so that every comparison against `NaN` is false.  Comparator
results live in `CmpVal` (`NaN` or integer); `Array.prototype.sort` treats a
`NaN` comparator result as `+0` (ECMA-262, SortCompare), and since ES2019 the
sort is stable, so the sort itself is embedded as a stable insertion sort
over "comparator result not greater than zero".  The injected `today`
parameter replaces the inline `new Date()` reads, as every claim fixes one
instant `today`.
-/

namespace Meridian

/-- Milliseconds per day, the divisor `1000 * 60 * 60 * 24` from the source. -/
def msPerDay : Int := 86400000

/-- `Math.ceil (a / b)` for integer `a` and positive integer `b`. -/
def ceilDiv (a b : Int) : Int := -((-a).fdiv b)

/-- `Math.floor (a / b)` for integer `a` and positive integer `b`. -/
def floorDiv (a b : Int) : Int := a.fdiv b

/-- `status` column: one of active, waiting, someday, done. -/
inductive TowerStatus where
  | active
  | waiting
  | someday
  | done
deriving DecidableEq, Repr

/-- `effort` column: quick, medium or deep. -/
inductive TowerEffort where
  | quick
  | medium
  | deep
deriving DecidableEq, Repr

/-- Abstraction of an `expectsBy` date string by the two observations the
engine makes of it: JavaScript truthiness (`empty` is falsy) and the result
of `new Date(s).getTime()` (`malformed` parses to `NaN`, `date ms` to the
timestamp `ms`). -/
inductive DateStr where
  | empty
  | malformed
  | date (ms : Int)
deriving DecidableEq, Repr

/-- The `TowerItem` record (domain model produced by `toTowerItem`):
id, text, status, optional waitingOn / expectsBy / effort, an `isEvent`
flag, and the `lastTouched` / `createdAt` / optional `doneAt` timestamps. -/
structure TowerItem where
  id : String := ""
  text : String := ""
  status : TowerStatus := .active
  waitingOn : Option String := none
  expectsBy : Option DateStr := none
  effort : Option TowerEffort := none
  isEvent : Bool := false
  lastTouched : Int := 0
  createdAt : Int := 0
  doneAt : Option Int := none
deriving DecidableEq, Repr

/-- Value of a `daysUntil` computation: JavaScript `null`, `NaN`, or a
number (always an integer here, being `Math.ceil` of a real division). -/
inductive DaysVal where
  | null
  | nan
  | num (d : Int)
deriving DecidableEq, Repr

/-- JavaScript `x < c` for `x : DaysVal` and an integer literal `c`:
`null` coerces to `0`, every comparison with `NaN` is false. -/
def DaysVal.jsLt : DaysVal → Int → Bool
  | .null, c => decide (0 < c)
  | .nan, _ => false
  | .num d, c => decide (d < c)

/-- JavaScript `x <= c`: `null` coerces to `0`, `NaN` compares false. -/
def DaysVal.jsLe : DaysVal → Int → Bool
  | .null, c => decide (0 ≤ c)
  | .nan, _ => false
  | .num d, c => decide (d ≤ c)

/-- JavaScript `x === c` for a number literal `c`: false for `null` and
`NaN`. -/
def DaysVal.jsEq : DaysVal → Int → Bool
  | .null, _ => false
  | .nan, _ => false
  | .num d, c => decide (d = c)

/-- `daysUntil` from the source:
`if (!dateStr) return null;` (absent or empty string), otherwise
`Math.ceil((new Date(dateStr) - today) / msPerDay)`, which is `NaN` for an
unparseable string. -/
def daysUntil (today : Int) : Option DateStr → DaysVal
  | none => .null
  | some .empty => .null
  | some .malformed => .nan
  | some (.date t) => .num (ceilDiv (t - today) msPerDay)

/-- `staleness` from the source:
`Math.floor((today - new Date(item.lastTouched)) / msPerDay)`. -/
def staleness (today : Int) (item : TowerItem) : Int :=
  floorDiv (today - item.lastTouched) msPerDay

/-- `getPriority` from the source: the eight urgency buckets, translated
branch for branch (the `days !== null` guards followed by JavaScript numeric
comparisons, which are all false on `NaN`). -/
def getPriority (today : Int) (item : TowerItem) : Int :=
  let days := daysUntil today item.expectsBy
  let isEvent := item.isEvent
  if !isEvent then
    if days ≠ DaysVal.null then
      if days.jsLt 0 then 0
      else if days.jsEq 0 then 1
      else if days.jsLe 3 then 4
      else if days.jsLe 7 then 6
      else 7
    else 2
  else
    if days ≠ DaysVal.null then
      if days.jsLe 0 then 3
      else if days.jsEq 1 then 5
      else 7
    else 2

/-- Result of the comparator body: a number or `NaN`. -/
inductive CmpVal where
  | nan
  | num (n : Int)
deriving DecidableEq, Repr

/-- JavaScript subtraction on two `daysUntil` values (`null` coerces to `0`,
`NaN` is absorbing). -/
def DaysVal.jsSub : DaysVal → DaysVal → CmpVal
  | .num a, .num b => .num (a - b)
  | .null, .num b => .num (0 - b)
  | .num a, .null => .num (a - 0)
  | .null, .null => .num 0
  | _, _ => .nan

/-- The comparator passed to `sort` in `sortByUrgency`: bucket difference
first, then within a bucket date distance, staleness (older first), and
dated-before-undated. -/
def cmpItems (today : Int) (a b : TowerItem) : CmpVal :=
  let priorityA := getPriority today a
  let priorityB := getPriority today b
  if priorityA ≠ priorityB then .num (priorityA - priorityB)
  else
    let daysA := daysUntil today a.expectsBy
    let daysB := daysUntil today b.expectsBy
    if daysA ≠ DaysVal.null ∧ daysB ≠ DaysVal.null then daysA.jsSub daysB
    else if daysA = DaysVal.null ∧ daysB = DaysVal.null then
      .num (staleness today b - staleness today a)
    else if daysA ≠ DaysVal.null then .num (-1)
    else .num 1

/-- "keep `a` before `b`": the comparator result is not a number greater
than zero.  ECMA-262 maps a `NaN` comparator result to `+0`. -/
def leItems (today : Int) (a b : TowerItem) : Bool :=
  match cmpItems today a b with
  | .nan => true
  | .num n => decide (n ≤ 0)

/-- The sort order as a relation, for use with `List.insertionSort`. -/
def towerLe (today : Int) (a b : TowerItem) : Prop :=
  leItems today a b = true

instance (today : Int) : DecidableRel (towerLe today) :=
  fun a b => inferInstanceAs (Decidable (leItems today a b = true))

/-- `sortByUrgency` from the source: a stable sort of the items by the
comparator (ES2019 `Array.prototype.sort` is stable; a stable insertion
sort realises it). -/
def sortByUrgency (today : Int) (items : List TowerItem) : List TowerItem :=
  List.insertionSort (towerLe today) items

/-- The partitioned tower view: the slices computed at the top of the Tower
view component. -/
structure TowerViewParts where
  hero : Option TowerItem
  queue : List TowerItem
  overflow : List TowerItem
  followUp : List TowerItem
  someday : List TowerItem
deriving DecidableEq, Repr

/-- The view-level pipeline from the Tower component:
`activeItems = sortByUrgency(tower.filter(status === 'active'))`,
`nowItem = activeItems[0]`, `queueItems = activeItems.slice(1, 3)`,
`overflowItems = activeItems.slice(3)`, `waitingItems` and `somedayItems`
by status filter. -/
def towerView (today : Int) (tower : List TowerItem) : TowerViewParts :=
  let activeItems :=
    sortByUrgency today (tower.filter fun i => decide (i.status = TowerStatus.active))
  { hero := activeItems.head?
    queue := (activeItems.drop 1).take 2
    overflow := activeItems.drop 3
    followUp := tower.filter fun i => decide (i.status = TowerStatus.waiting)
    someday := tower.filter fun i => decide (i.status = TowerStatus.someday) }

/-- `Partial<TowerItemInput>` as received by `updateTowerItem`: `none`
means the field is absent (or carries the value `undefined`, which the
`!== undefined` presence checks cannot distinguish from absence).  For the
nullable columns, `some none` is an explicit `null`. -/
structure TowerItemUpdates where
  text : Option String := none
  status : Option TowerStatus := none
  waitingOn : Option (Option String) := none
  expectsBy : Option (Option DateStr) := none
  effort : Option (Option TowerEffort) := none
  isEvent : Option Bool := none

/-- `updateTowerItem` from `services/data.ts`: always writes
`last_touched = now`, and copies exactly the update fields that pass their
`!== undefined` check into the persisted row. -/
def updateTowerItem (now : Int) (row : TowerItem) (updates : TowerItemUpdates) :
    TowerItem :=
  { row with
    lastTouched := now
    text := match updates.text with | some t => t | none => row.text
    status := match updates.status with | some st => st | none => row.status
    waitingOn := match updates.waitingOn with | some w => w | none => row.waitingOn
    expectsBy := match updates.expectsBy with | some e => e | none => row.expectsBy
    effort := match updates.effort with | some e => e | none => row.effort
    isEvent := match updates.isEvent with | some b => b | none => row.isEvent }

/-- `handleReactivate` from the Tower view: an update call with
`status: 'active'` and `waitingOn: undefined`, forwarded through the
store's `updateTowerItemById` wrapper to `updateTowerItem` unchanged.  A
property holding the value `undefined` fails the
`updates.waitingOn !== undefined` presence check in `updateTowerItem`, so
it is embedded as the absent field `none`. -/
def handleReactivate (now : Int) (row : TowerItem) : TowerItem :=
  updateTowerItem now row { status := some TowerStatus.active, waitingOn := none }

/-- JavaScript truthiness of the `expectsBy` field (`undefined` and `""`
are falsy). -/
def expectsPresent : Option DateStr → Bool
  | none => false
  | some .empty => false
  | some .malformed => true
  | some (.date _) => true

/-- Rendering of a `daysUntil` value inside a template literal. -/
def DaysVal.render : DaysVal → String
  | .null => "null"
  | .nan => "NaN"
  | .num d => toString d

/-- `Math.abs(daysUntil)` rendered inside a template literal. -/
def jsAbsRender : DaysVal → String
  | .null => "0"
  | .nan => "NaN"
  | .num d => toString d.natAbs

/-- The `Math.abs(daysUntil) === 1 ? '' : 's'` plural suffix (false on
`NaN`). -/
def jsPluralAbs : DaysVal → String
  | .num d => if d.natAbs = 1 then "" else "s"
  | _ => "s"

/-- The tail of `generateFallbackExplanation` (its age-based reasoning on
`daysOld`), split out verbatim so that the fall-through behaviour of the
deadline branch can be named. -/
def ageBasedExplanation (daysOld : Int) (queuePosition : Nat) : String :=
  if daysOld = 0 then
    if queuePosition = 0 then "Fresh capture. Strike while the intent is clear."
    else "Added today. Still has momentum from when you captured it."
  else if daysOld = 1 then
    "From yesterday. The gap between intention and action is still small."
  else if daysOld ≤ 3 then
    s!"Waiting {daysOld} days. Each day it sits, the activation energy grows."
  else if daysOld ≤ 7 then
    "A week-old open loop. Your brain is spending cycles remembering this exists."
  else
    s!"{daysOld} days in limbo. Either do it, delegate it, or delete it."

/-- `generateFallbackExplanation` from `services/ai.ts`, translated branch
for branch.  The deadline block only returns for `daysUntil < 0`, `=== 0`,
`=== 1` and `<= 3`; otherwise control falls through to the age-based
reasoning. -/
def generateFallbackExplanation (today : Int) (item : TowerItem)
    (queuePosition : Nat) : String :=
  let daysOld := floorDiv (today - item.createdAt) msPerDay
  if item.isEvent && expectsPresent item.expectsBy then
    let du := daysUntil today item.expectsBy
    let n := jsAbsRender du
    let sfx := jsPluralAbs du
    let r := du.render
    if du.jsLt 0 then
      s!"This was {n} day{sfx} ago. Did you miss it, or should this be cleared?"
    else if du.jsEq 0 then "Happening today. This is your reminder."
    else if du.jsEq 1 then "Tomorrow. Heads up so you can prepare."
    else s!"Coming up in {r} days. Showing early so it doesn\x27t surprise you."
  else if expectsPresent item.expectsBy then
    let du := daysUntil today item.expectsBy
    let n := jsAbsRender du
    let sfx := jsPluralAbs du
    let r := du.render
    if du.jsLt 0 then
      s!"This was expected {n} day{sfx} ago. The longer it waits, the harder the conversation becomes."
    else if du.jsEq 0 then "Expected today. Better to act while the context is fresh."
    else if du.jsEq 1 then "Due tomorrow. Handling it now means one less thing weighing on you."
    else if du.jsLe 3 then s!"Due in {r} days. Early action prevents last-minute stress."
    else ageBasedExplanation daysOld queuePosition
  else ageBasedExplanation daysOld queuePosition

/-!  Specification-side definitions (for the refinement claims these are
written from the specification text, to be compared with the source
embeddings above). -/

/-- `ValidExpects e`: the `expectsBy` field respects the data model of the
specification (absent, or a parseable calendar date). -/
def ValidExpects (e : Option DateStr) : Prop :=
  e = none ∨ ∃ t, e = some (DateStr.date t)

instance (e : Option DateStr) : Decidable (ValidExpects e) := by
  unfold ValidExpects
  cases e with
  | none => exact isTrue (Or.inl rfl)
  | some d =>
    cases d with
    | empty => exact isFalse (by rintro (h | ⟨t, h⟩) <;> simp_all)
    | malformed => exact isFalse (by rintro (h | ⟨t, h⟩) <;> simp_all)
    | date t => exact isTrue (Or.inr ⟨t, rfl⟩)

/-- Modelled from the spec: `daysUntil = expectsBy - today` in whole days,
ceiling of the real-time difference, `null` (here `none`) if no
`expectsBy`.  Defined on well-formed dates. -/
def specDaysUntil (today : Int) : Option DateStr → Option Int
  | some (.date t) => some (ceilDiv (t - today) msPerDay)
  | _ => none

/-- Modelled from the spec: the section 4.1 bucket table, evaluated top to
bottom with first match winning. -/
def specBucket (isEvent : Bool) (du : Option Int) : Int :=
  if !isEvent && du.any (fun d => decide (d < 0)) then 0
  else if !isEvent && du.any (fun d => decide (d = 0)) then 1
  else if du.isNone then 2
  else if isEvent && du.any (fun d => decide (d ≤ 0)) then 3
  else if !isEvent && du.any (fun d => decide (1 ≤ d) && decide (d ≤ 3)) then 4
  else if isEvent && du.any (fun d => decide (d = 1)) then 5
  else if !isEvent && du.any (fun d => decide (4 ≤ d) && decide (d ≤ 7)) then 6
  else 7

/-- The day distance of an item when it has one: `daysUntil` collapsed to
`Option Int` (`NaN`, which cannot arise on well-formed data, counts as no
date). -/
def datedDays (today : Int) (x : TowerItem) : Option Int :=
  match daysUntil today x.expectsBy with
  | .num d => some d
  | _ => none

/-- Modelled from the spec: the ranking order of section 4.2 — bucket
ascending, then within a bucket by day distance ascending, staleness
descending for two undated items, and dated before undated. -/
def specLeB (today : Int) (a b : TowerItem) : Bool :=
  decide (getPriority today a < getPriority today b) ||
  (decide (getPriority today a = getPriority today b) &&
    match datedDays today a, datedDays today b with
    | some da, some db => decide (da ≤ db)
    | none, none => decide (staleness today b ≤ staleness today a)
    | some _, none => true
    | none, some _ => false)

/-!  Sorting scaffolding: sortedness of `List.insertionSort` from totality
and transitivity hypotheses restricted to the members of the list (the
comparator is only consistent on well-formed data, so the global typeclass
versions do not apply). -/

theorem sorted_orderedInsert_of_mem {α : Type _} (r : α → α → Prop) [DecidableRel r] (x : α) :
    ∀ l : List α, (∀ b ∈ l, r x b ∨ r b x) →
      (∀ b ∈ l, ∀ c ∈ l, r x b → r b c → r x c) →
      l.Sorted r → (l.orderedInsert r x).Sorted r
  | [], _, _, _ => List.sorted_singleton x
  | y :: l, tot, htr, hl => by
    rcases List.sorted_cons.mp hl with ⟨hy, hl'⟩
    rw [List.orderedInsert]
    by_cases h : r x y
    · rw [if_pos h]
      refine List.sorted_cons.mpr ⟨?_, hl⟩
      intro b hb
      rcases List.mem_cons.mp hb with rfl | hb
      · exact h
      · exact htr y (List.mem_cons_self y l) b (List.mem_cons_of_mem y hb) h (hy b hb)
    · rw [if_neg h]
      refine List.sorted_cons.mpr ⟨?_, ?_⟩
      · intro b hb
        rcases (List.mem_orderedInsert r).mp hb with rfl | hb
        · rcases tot y (List.mem_cons_self y l) with h' | h'
          · exact absurd h' h
          · exact h'
        · exact hy b hb
      · exact sorted_orderedInsert_of_mem r x l
          (fun b hb => tot b (List.mem_cons_of_mem y hb))
          (fun b hb c hc => htr b (List.mem_cons_of_mem y hb) c (List.mem_cons_of_mem y hc))
          hl'

theorem sorted_insertionSort_of_mem {α : Type _} (r : α → α → Prop) [DecidableRel r] :
    ∀ l : List α, (∀ a ∈ l, ∀ b ∈ l, r a b ∨ r b a) →
      (∀ a ∈ l, ∀ b ∈ l, ∀ c ∈ l, r a b → r b c → r a c) →
      (l.insertionSort r).Sorted r
  | [], _, _ => List.sorted_nil
  | x :: l, tot, htr => by
    rw [List.insertionSort]
    have hmem : ∀ b ∈ l.insertionSort r, b ∈ l := fun b hb =>
      (List.mem_insertionSort r).mp hb
    exact sorted_orderedInsert_of_mem r x (l.insertionSort r)
      (fun b hb =>
        tot x (List.mem_cons_self x l) b (List.mem_cons_of_mem x (hmem b hb)))
      (fun b hb c hc =>
        htr x (List.mem_cons_self x l) b (List.mem_cons_of_mem x (hmem b hb))
          c (List.mem_cons_of_mem x (hmem c hc)))
      (sorted_insertionSort_of_mem r l
        (fun a ha b hb =>
          tot a (List.mem_cons_of_mem x ha) b (List.mem_cons_of_mem x hb))
        (fun a ha b hb c hc =>
          htr a (List.mem_cons_of_mem x ha) b (List.mem_cons_of_mem x hb)
            c (List.mem_cons_of_mem x hc)))

/-!  Comparator facts. -/

/-- The comparator is antisymmetric: swapping the arguments negates a
numeric result and preserves `NaN`. -/
theorem cmpItems_antisym (today : Int) (a b : TowerItem) :
    (cmpItems today a b = CmpVal.nan ∧ cmpItems today b a = CmpVal.nan) ∨
    ∃ n, cmpItems today a b = CmpVal.num n ∧ cmpItems today b a = CmpVal.num (-n) := by
  unfold cmpItems
  by_cases hp : getPriority today a = getPriority today b
  · rcases hA : daysUntil today a.expectsBy with _ | _ | da <;>
      rcases hB : daysUntil today b.expectsBy with _ | _ | db <;>
      simp [hp, DaysVal.jsSub]
  · have hp' : getPriority today b ≠ getPriority today a := fun h => hp h.symm
    simp [hp, hp']

/-- Totality of the sort order (for arbitrary items, malformed dates
included). -/
theorem leItems_total (today : Int) (a b : TowerItem) :
    leItems today a b = true ∨ leItems today b a = true := by
  unfold leItems
  rcases cmpItems_antisym today a b with ⟨h1, h2⟩ | ⟨n, h1, h2⟩ <;>
    rw [h1, h2]
  · simp
  · simp only [decide_eq_true_eq]
    omega

/-- On well-formed data the source comparator's order coincides with the
specification order `specLeB`. -/
theorem leItems_eq_specLeB (today : Int) {a b : TowerItem}
    (ha : ValidExpects a.expectsBy) (hb : ValidExpects b.expectsBy) :
    leItems today a b = specLeB today a b := by
  rcases ha with ha | ⟨ta, ha⟩ <;> rcases hb with hb | ⟨tb, hb⟩ <;>
    by_cases hp : getPriority today a = getPriority today b <;>
    simp [leItems, cmpItems, specLeB, datedDays, daysUntil, ha, hb,
      DaysVal.jsSub, hp] <;> omega

/-- Totality of the specification order. -/
theorem specLeB_total (today : Int) (a b : TowerItem) :
    specLeB today a b = true ∨ specLeB today b a = true := by
  unfold specLeB
  rcases hA : datedDays today a with _ | da <;>
    rcases hB : datedDays today b with _ | db <;> simp <;> omega

/-- Transitivity of the specification order. -/
theorem specLeB_trans (today : Int) {a b c : TowerItem}
    (h1 : specLeB today a b = true) (h2 : specLeB today b c = true) :
    specLeB today a c = true := by
  unfold specLeB at *
  rcases hA : datedDays today a with _ | da <;>
    rcases hB : datedDays today b with _ | db <;>
    rcases hC : datedDays today c with _ | dc <;>
    simp [hA, hB, hC] at * <;> omega

/-- Decomposition of a list into its head, the slice `[1,3)` and the tail
from index 3. -/
theorem partition_decomp {α : Type _} (l : List α) :
    l.head?.toList ++ (l.drop 1).take 2 ++ l.drop 3 = l := by
  cases l with
  | nil => rfl
  | cons x l' => simp [List.take_append_drop]

/-- Every member of the ranked active list has status `active`. -/
theorem mem_rankedActive_status (today : Int) (tower : List TowerItem) :
    ∀ x ∈ sortByUrgency today
        (tower.filter fun i => decide (i.status = TowerStatus.active)),
      x.status = TowerStatus.active := by
  intro x hx
  have hx' : x ∈ tower.filter fun i => decide (i.status = TowerStatus.active) :=
    (List.mem_insertionSort _).mp hx
  simpa using List.of_mem_filter hx'

/-- On a list of items with well-formed dates, `sortByUrgency` produces a
list sorted by the comparator order (totality holds outright; transitivity
holds on well-formed data, where the comparator agrees with `specLeB`). -/
theorem sorted_sortByUrgency_of_valid (today : Int) (items : List TowerItem)
    (hv : ∀ x ∈ items, ValidExpects x.expectsBy) :
    (sortByUrgency today items).Sorted (towerLe today) := by
  unfold sortByUrgency
  refine sorted_insertionSort_of_mem _ items
    (fun a _ b _ => leItems_total today a b) ?_
  intro a ha b hb c hc hab hbc
  have hab' : specLeB today a b = true := by
    rw [← leItems_eq_specLeB today (hv a ha) (hv b hb)]; exact hab
  have hbc' : specLeB today b c = true := by
    rw [← leItems_eq_specLeB today (hv b hb) (hv c hc)]; exact hbc
  show leItems today a c = true
  rw [leItems_eq_specLeB today (hv a ha) (hv c hc)]
  exact specLeB_trans today hab' hbc'

/-- The four-item worked example of the specification (scenario 6, with
`today = 0`): an overdue action, two no-date actions of staleness 10 and 1
days, and an event five days out. -/
def exampleItems : List TowerItem :=
  [{ id := "a", expectsBy := some (.date (-2 * msPerDay)) },
   { id := "b", lastTouched := -10 * msPerDay },
   { id := "c", lastTouched := -msPerDay },
   { id := "d", isEvent := true, expectsBy := some (.date (5 * msPerDay)) }]

-- Sanity checks against the worked examples of the specification
-- (today = day 0; dates given in whole days).
example :
    getPriority 0 { expectsBy := some (.date (-2 * msPerDay)) } = 0 := by decide
example : getPriority 0 { expectsBy := none } = 2 := by decide
example : getPriority 0 { isEvent := true, expectsBy := some (.date 0) } = 3 := by decide
example :
    getPriority 0 { isEvent := true, expectsBy := some (.date msPerDay) } = 5 := by decide
example :
    getPriority 0 { expectsBy := some (.date (5 * msPerDay)) } = 6 := by decide

/-!  Claims. -/

/-- C1: for every item with a well-formed `expectsBy` (absent or a
parseable date) and a fixed injected `today`, the classifier `getPriority`
returns exactly the bucket of the section 4.1 table (`specBucket`,
evaluated top to bottom, first match wins) applied to
`daysUntil = ceiling of (expectsBy - today)` in whole days, `none` when
`expectsBy` is absent. -/
theorem C1_classifier_matches_table (today : Int) (item : TowerItem)
    (h : ValidExpects item.expectsBy) :
    getPriority today item =
      specBucket item.isEvent (specDaysUntil today item.expectsBy) := by
  rcases h with h | ⟨t, h⟩
  · cases hE : item.isEvent <;>
      simp [getPriority, specBucket, specDaysUntil, daysUntil, h, hE]
  · have hd : daysUntil today item.expectsBy =
        DaysVal.num (ceilDiv (t - today) msPerDay) := by rw [h]; rfl
    generalize hgen : ceilDiv (t - today) msPerDay = d at hd
    have hs : specDaysUntil today item.expectsBy = some d := by
      rw [h, specDaysUntil, hgen]
    cases hE : item.isEvent <;>
      simp only [getPriority, hd, hs, hE, specBucket, DaysVal.jsLt, DaysVal.jsEq,
        DaysVal.jsLe, Option.any_some, Option.isNone_some, Bool.not_false,
        Bool.not_true, Bool.true_and, Bool.false_and, Bool.and_eq_true,
        decide_eq_true_eq, ne_eq, reduceCtorEq, not_false_eq_true, if_true,
        if_false, Bool.false_eq_true] <;>
      split_ifs <;> first | rfl | omega

/-- Witness for C1 at a concrete input: an action expected in two days is
assigned bucket 4 by both the code and the table. -/
theorem C1_witness :
    ValidExpects ({ expectsBy := some (.date (2 * msPerDay)) } : TowerItem).expectsBy ∧
    getPriority 0 { expectsBy := some (.date (2 * msPerDay)) } =
      specBucket ({ expectsBy := some (.date (2 * msPerDay)) } : TowerItem).isEvent
        (specDaysUntil 0 ({ expectsBy := some (.date (2 * msPerDay)) } : TowerItem).expectsBy) :=
  ⟨Or.inr ⟨_, rfl⟩, C1_classifier_matches_table 0 _ (Or.inr ⟨_, rfl⟩)⟩

/-- C3 counterexample: an item whose `expectsBy` is present but a nonempty
unparseable string is classified into bucket 7, not bucket 2: `new Date`
yields `NaN`, every numeric comparison on it is false, and control falls to
the final `return 7`. -/
theorem C3_counterexample :
    getPriority 0 { text := "x", expectsBy := some DateStr.malformed } = 7 ∧
    getPriority 0 { text := "x", expectsBy := some DateStr.malformed } ≠ 2 := by
  decide

/-- C3 amended: a malformed (present, nonempty, unparseable) `expectsBy`
never throws but is classified into bucket 7, not bucket 2; only an absent
or empty `expectsBy` takes the no-date bucket 2 path. -/
theorem C3_amended_malformed_bucket (today : Int) (item : TowerItem) :
    (item.expectsBy = some DateStr.malformed → getPriority today item = 7) ∧
    (item.expectsBy = some DateStr.empty → getPriority today item = 2) ∧
    (item.expectsBy = none → getPriority today item = 2) := by
  refine ⟨?_, ?_, ?_⟩ <;> intro h <;> cases hE : item.isEvent <;>
    simp [getPriority, daysUntil, h, hE, DaysVal.jsLt, DaysVal.jsEq, DaysVal.jsLe]

/-- Witness for the amended C3 at a concrete input. -/
theorem C3_witness :
    ({ text := "x", expectsBy := some DateStr.malformed } : TowerItem).expectsBy =
      some DateStr.malformed ∧
    getPriority 0 { text := "x", expectsBy := some DateStr.malformed } = 7 :=
  ⟨rfl, (C3_amended_malformed_bucket 0 _).1 rfl⟩

/-- C4: the partitioner takes the ranked active list to
`hero = head`, `queue = slice [1,3)`, `overflow = drop 3`; the three parts
concatenate back to the ranked list, `|hero| ≤ 1`, `|queue| ≤ 2` and
`|overflow| = max 0 (N - 3)`. -/
theorem C4_partition (today : Int) (tower : List TowerItem) :
    let act := sortByUrgency today
      (tower.filter fun i => decide (i.status = TowerStatus.active))
    let v := towerView today tower
    v.hero = act.head? ∧ v.queue = (act.drop 1).take 2 ∧ v.overflow = act.drop 3 ∧
    v.hero.toList ++ v.queue ++ v.overflow = act ∧
    v.hero.toList.length ≤ 1 ∧ v.queue.length ≤ 2 ∧
    (v.overflow.length : Int) = max 0 ((act.length : Int) - 3) := by
  refine ⟨rfl, rfl, rfl, partition_decomp _, ?_, ?_, ?_⟩
  · cases h : (sortByUrgency today
        (tower.filter fun i => decide (i.status = TowerStatus.active))).head? <;>
      simp [towerView, h]
  · simp [towerView]
  · simp only [towerView, List.length_drop]
    rcases le_total
        ((sortByUrgency today
          (tower.filter fun i => decide (i.status = TowerStatus.active))).length) 3 with h | h <;>
      simp [max_def] <;> omega

/-- C5: no waiting, someday or done item ever appears in hero, queue or
overflow (only active items enter the pipeline), and the follow-up and
someday lists are exactly the waiting- and someday-status filters. -/
theorem C5_status_exclusion (today : Int) (tower : List TowerItem) :
    ((towerView today tower).hero.all fun x => decide (x.status = TowerStatus.active)) = true ∧
    ((towerView today tower).queue.all fun x => decide (x.status = TowerStatus.active)) = true ∧
    ((towerView today tower).overflow.all fun x => decide (x.status = TowerStatus.active)) = true ∧
    (towerView today tower).followUp =
      (tower.filter fun i => decide (i.status = TowerStatus.waiting)) ∧
    (towerView today tower).someday =
      (tower.filter fun i => decide (i.status = TowerStatus.someday)) := by
  have hact := mem_rankedActive_status today tower
  refine ⟨?_, ?_, ?_, rfl, rfl⟩
  · rcases h : (sortByUrgency today
        (tower.filter fun i => decide (i.status = TowerStatus.active))).head? with _ | x
    · simp [towerView, h]
    · have hx : x ∈ sortByUrgency today
          (tower.filter fun i => decide (i.status = TowerStatus.active)) :=
        List.mem_of_mem_head? h
      simp [towerView, h, hact x hx]
  · rw [List.all_eq_true]
    intro x hx
    have hx' : x ∈ sortByUrgency today
        (tower.filter fun i => decide (i.status = TowerStatus.active)) :=
      List.mem_of_mem_drop (List.mem_of_mem_take hx)
    simpa using hact x hx'
  · rw [List.all_eq_true]
    intro x hx
    have hx' : x ∈ sortByUrgency today
        (tower.filter fun i => decide (i.status = TowerStatus.active)) :=
      List.mem_of_mem_drop hx
    simpa using hact x hx'

/-- C6: evaluation of the code at the failing input.  Reactivating a
waiting item that carries a `waitingOn` makes it active but leaves the old
`waitingOn` in the persisted row: the `waitingOn: undefined` sent by
`handleReactivate` fails the `!== undefined` presence check inside
`updateTowerItem`, so the column is never written. -/
theorem C6_reactivate_keeps_waitingOn :
    (handleReactivate 0
        { status := TowerStatus.waiting, waitingOn := some "vendor" }).status =
      TowerStatus.active ∧
    (handleReactivate 0
        { status := TowerStatus.waiting, waitingOn := some "vendor" }).waitingOn =
      some "vendor" :=
  ⟨rfl, rfl⟩

/-- C2: for a fixed `today` and any list of active items with well-formed
dates, the ranking is pairwise ordered by the section 4.2 order: bucket
ascending; within a bucket by `daysUntil` ascending when both items are
dated, by staleness descending when neither is, and dated before undated
otherwise. -/
theorem C2_ranking_order (today : Int) (items : List TowerItem)
    (hv : ∀ x ∈ items, ValidExpects x.expectsBy) :
    (sortByUrgency today items).Pairwise fun a b => specLeB today a b = true := by
  have hs := sorted_sortByUrgency_of_valid today items hv
  have hmem : ∀ x ∈ sortByUrgency today items, x ∈ items := fun x hx =>
    (List.mem_insertionSort _).mp hx
  exact List.Pairwise.imp_of_mem
    (fun hx hy h => by
      rw [← leItems_eq_specLeB today (hv _ (hmem _ hx)) (hv _ (hmem _ hy))]
      exact h) hs

/-- Witness for C2 on the worked example list. -/
theorem C2_witness :
    (∀ x ∈ exampleItems, ValidExpects x.expectsBy) ∧
    (sortByUrgency 0 exampleItems).Pairwise fun a b => specLeB 0 a b = true :=
  ⟨by decide, C2_ranking_order 0 exampleItems (by decide)⟩

/-- C9: re-ranking is idempotent on any snapshot with well-formed dates:
sorting the sorted output returns it unchanged (the embedded sort is the
stable sort, which fixes every already-sorted list). -/
theorem C9_idempotent (today : Int) (items : List TowerItem)
    (hv : ∀ x ∈ items, ValidExpects x.expectsBy) :
    sortByUrgency today (sortByUrgency today items) = sortByUrgency today items := by
  have hs := sorted_sortByUrgency_of_valid today items hv
  show List.insertionSort (towerLe today) (sortByUrgency today items) =
    sortByUrgency today items
  exact hs.insertionSort_eq

/-- Witness for C9 on the worked example list. -/
theorem C9_witness :
    (∀ x ∈ exampleItems, ValidExpects x.expectsBy) ∧
    sortByUrgency 0 (sortByUrgency 0 exampleItems) = sortByUrgency 0 exampleItems :=
  ⟨by decide, C9_idempotent 0 exampleItems (by decide)⟩

/-- C10: for every input list and fixed `today`, `sortByUrgency` returns a
permutation of its input — no item dropped, none duplicated (the input
itself is untouched: the source sorts a fresh copy `[...items]`, and the
embedding is a pure function). -/
theorem C10_sort_permutation (today : Int) (items : List TowerItem) :
    (sortByUrgency today items).Perm items :=
  List.perm_insertionSort _ items

/-- C8 amended: the comparator never throws and is total — for any two
items (even malformed ones) at least one order direction holds — but a
`lastTouched` in the future of `today` is not clamped: staleness is the
floor of the delta and can be negative. -/
theorem C8_amended_comparator_total (today : Int) (a b : TowerItem) :
    leItems today a b = true ∨ leItems today b a = true :=
  leItems_total today a b

/-- C8 counterexample: an item touched one day in the future has staleness
`-1`, not the claimed clamped `0`, and that negative value is what ranks
it: it sorts after a fresh (staleness `0`) item instead of tying with it. -/
theorem C8_counterexample :
    staleness 0 { id := "a", lastTouched := msPerDay } = -1 ∧
    sortByUrgency 0 [{ id := "a", lastTouched := msPerDay }, { id := "b" }] =
      [{ id := "b" }, { id := "a", lastTouched := msPerDay }] := by
  decide

/-- C7 counterexample: a non-event with a parseable deadline five days out
is explained by the createdAt-age-based wording, not deadline proximity:
the deadline block only returns for `daysUntil <= 3` and falls through. -/
theorem C7_counterexample :
    generateFallbackExplanation 0
        { expectsBy := some (DateStr.date (5 * msPerDay)) } 1 =
      "Added today. Still has momentum from when you captured it." ∧
    generateFallbackExplanation 0
        { expectsBy := some (DateStr.date (5 * msPerDay)) } 1 =
      ageBasedExplanation 0 1 := by
  decide

/-- C7 amended: for a non-event with a parseable `expectsBy`, the
explanation is phrased by deadline proximity exactly when
`daysUntil <= 3` (overdue, today, tomorrow, or due in 2–3 days); for
`daysUntil >= 4` the generator falls through to the createdAt-age-based
wording. -/
theorem C7_amended_deadline_wording (today : Int) (item : TowerItem) (qp : Nat)
    (t : Int) (hevent : item.isEvent = false)
    (hdate : item.expectsBy = some (DateStr.date t)) :
    let d := ceilDiv (t - today) msPerDay
    let n := toString d.natAbs
    let sfx := if d.natAbs = 1 then ("" : String) else "s"
    let r := toString d
    generateFallbackExplanation today item qp =
      (if d < 0 then
        s!"This was expected {n} day{sfx} ago. The longer it waits, the harder the conversation becomes."
      else if d = 0 then "Expected today. Better to act while the context is fresh."
      else if d = 1 then "Due tomorrow. Handling it now means one less thing weighing on you."
      else if d ≤ 3 then s!"Due in {r} days. Early action prevents last-minute stress."
      else ageBasedExplanation (floorDiv (today - item.createdAt) msPerDay) qp) := by
  simp only [generateFallbackExplanation, hevent, hdate, expectsPresent,
    daysUntil, DaysVal.jsLt, DaysVal.jsEq, DaysVal.jsLe, jsAbsRender,
    jsPluralAbs, DaysVal.render, Bool.false_and, Bool.and_self,
    Bool.true_and, if_true, if_false, Bool.false_eq_true, decide_eq_true_eq]

/-- Witness for the amended C7 at a concrete input: an action due in two
days gets the due-in-2-days wording. -/
theorem C7_witness :
    ({ expectsBy := some (DateStr.date (2 * msPerDay)) } : TowerItem).isEvent = false ∧
    generateFallbackExplanation 0
        { expectsBy := some (DateStr.date (2 * msPerDay)) } 0 =
      "Due in 2 days. Early action prevents last-minute stress." :=
  ⟨rfl, by
    have h := C7_amended_deadline_wording 0
      { expectsBy := some (DateStr.date (2 * msPerDay)) } 0 (2 * msPerDay) rfl rfl
    simpa using h⟩

end Meridian
